import Mathlib

/-!
Verification of the Kairoz task-orchestration core against its
natural-language specification.

The definitions below are shallow embeddings of the TypeScript source:

* `Status`, `AgentTask`, `Deployment` — the Prisma data model
  (prisma/schema.prisma; enum Status, models AgentTask and Deployment).
* `updateTaskStatus`, `incrementAttempts` — src/agents/base-agent.ts.
* `selfCorrectionLoop`, `deploymentExecute` — the build loop of
  src/agents/deployment-agent.ts (execute, lines 281-397).
* `processTask`, `mapAgentNameToType`, `processPendingTasksFromDB`,
  `retryTask`, `getOverallStatus` — src/agents/agent-coordinator.ts.
* `mapAgentName` — src/agents/orchestrator-agent.ts.
* `queueTask`, priority constants — agent-coordinator.ts and
  src/services/queue.ts.

Timestamps are modelled as natural numbers; the variable `now` stands for
the value of `new Date()` at the moment of a database write.  Opaque JSON
payloads are modelled as strings.  External effects (git clone, docker
build, LLM calls, log writes) are modelled by explicit environment records
supplying their results; log records do not feed back into control flow
(spec section 3) and are not tracked.
-/

/-- The Prisma `Status` enum (schema.prisma). -/
inductive Status where
  | PENDING
  | IN_PROGRESS
  | SUCCESS
  | FAILED
  | REQUIRES_MANUAL_ACTION
deriving DecidableEq, Repr

/-- Structured fault analysis returned by `analyzeBuildError`
(deployment-agent.ts, `ErrorAnalysisSchema`). -/
structure ErrorAnalysis where
  errorType : String
  rootCause : String
  suggestedFix : String
  confidence : Nat
  requiresManualIntervention : Bool
deriving DecidableEq, Repr

/-- The JSON payloads the agents write into the `output` column of an
`AgentTask`: the manual-action payload of deployment-agent.ts line 337,
the success payload of line 378, and the error payload of lines 394/213. -/
inductive TaskOutput where
  | manualActionOutput (error : String) (analysis : ErrorAnalysis) (repoPath : String)
  | successOutput (deploymentId imageName containerName repoPath : String) (attempts : Nat)
  | errorOutput (error : String)
deriving DecidableEq, Repr

/-- The Prisma `AgentTask` model (schema.prisma).  `input` is the opaque
JSON input payload, modelled as an optional string. -/
structure AgentTask where
  id : String
  deploymentId : String
  agentName : String
  taskName : String
  status : Status
  attempts : Nat
  input : Option String
  output : Option TaskOutput
  startedAt : Option Nat
  completedAt : Option Nat
  createdAt : Nat
  updatedAt : Nat
deriving DecidableEq, Repr

/-- The Prisma `Deployment` model (schema.prisma); its tasks are kept
separately as a list where needed. -/
structure Deployment where
  id : String
  repoUrl : Option String
  domain : Option String
  status : Status
  createdAt : Nat
  updatedAt : Nat
deriving DecidableEq, Repr

/-- `BaseAgent.updateTaskStatus` (base-agent.ts lines 42-68): builds the
update record — always `status` and `updatedAt`; `startedAt` when the new
status is `IN_PROGRESS` and no output argument was given; `completedAt`
when the new status is `SUCCESS` or `FAILED`; `output` when an output
argument was given — and applies it to the stored row. -/
def updateTaskStatus (task : AgentTask) (status : Status)
    (output : Option TaskOutput) (now : Nat) : AgentTask :=
  let t1 := { task with status := status, updatedAt := now }
  let t2 := if status = Status.IN_PROGRESS ∧ output = none then
      { t1 with startedAt := some now } else t1
  let t3 := if status = Status.SUCCESS ∨ status = Status.FAILED then
      { t2 with completedAt := some now } else t2
  match output with
  | some o => { t3 with output := some o }
  | none => t3

/-- `BaseAgent.incrementAttempts` (base-agent.ts lines 73-83): adds one to
the stored `attempts` column and returns the updated row together with the
new counter value, as the source returns `updated.attempts`. -/
def incrementAttempts (task : AgentTask) : AgentTask × Nat :=
  let t := { task with attempts := task.attempts + 1 }
  (t, t.attempts)

/-- Deployment-record creation (`db.createDeployment` in
services/database.ts lines 34-42, and the identical inline creations in
routes/deployment.ts line 25 and orchestrator-agent.ts line 152): the
status column is always written as `PENDING`. -/
def createDeployment (id : String) (repoUrl domain : Option String)
    (now : Nat) : Deployment :=
  { id := id, repoUrl := repoUrl, domain := domain,
    status := Status.PENDING, createdAt := now, updatedAt := now }

/-- The aggregate-status computation of
`AgentCoordinator.getDeploymentWorkflowStatus`
(agent-coordinator.ts lines 524-533): starting from the stored deployment
status, the first matching rule of the top-down chain wins. -/
def getOverallStatus (deploymentStatus : Status) (tasks : List AgentTask) : Status :=
  if tasks.any (fun t => t.status = Status.REQUIRES_MANUAL_ACTION) then
    Status.REQUIRES_MANUAL_ACTION
  else if tasks.any (fun t => t.status = Status.FAILED) then
    Status.FAILED
  else if tasks.any (fun t => t.status = Status.IN_PROGRESS) then
    Status.IN_PROGRESS
  else if tasks.all (fun t => t.status = Status.SUCCESS) then
    Status.SUCCESS
  else
    deploymentStatus

/-- Modelled from the spec: the section 4.1 precedence function over task
statuses, written from the words of the spec for comparison with
`getOverallStatus`: any task REQUIRES_MANUAL_ACTION gives
REQUIRES_MANUAL_ACTION; else any task FAILED gives FAILED; else any task
IN_PROGRESS gives IN_PROGRESS; else all tasks SUCCESS gives SUCCESS; else
the deployment keeps its current value. -/
def specAggregateStatus (current : Status) (statuses : List Status) : Status :=
  if statuses.any (fun s => s = Status.REQUIRES_MANUAL_ACTION) then
    Status.REQUIRES_MANUAL_ACTION
  else if statuses.any (fun s => s = Status.FAILED) then
    Status.FAILED
  else if statuses.any (fun s => s = Status.IN_PROGRESS) then
    Status.IN_PROGRESS
  else if statuses.all (fun s => s = Status.SUCCESS) then
    Status.SUCCESS
  else
    current

/-- Claim C9: for every deployment, the aggregate status computed by the
coordinator equals the top-down first-match precedence function of the
spec applied to the statuses of its tasks, and deployment creation is the
only independent status write, always setting PENDING. -/
theorem aggregate_status_matches_spec_precedence :
    (∀ (d : Status) (tasks : List AgentTask),
      getOverallStatus d tasks = specAggregateStatus d (tasks.map (fun t => t.status)))
    ∧ (∀ (id : String) (repoUrl domain : Option String) (now : Nat),
      (createDeployment id repoUrl domain now).status = Status.PENDING) := by
  constructor
  · intro d tasks
    simp [getOverallStatus, specAggregateStatus, List.any_map, List.all_map,
      Function.comp]
  · intro id repoUrl domain now
    rfl

/-- Claim C10: `updateTaskStatus` writes `completedAt` exactly when the new
status is SUCCESS or FAILED — in particular a task reaching the terminal
state REQUIRES_MANUAL_ACTION with `completedAt` unset keeps it unset — and
leaves `input`, `attempts` and `createdAt` untouched on every transition. -/
theorem updateTaskStatus_completedAt_and_frame :
    ∀ (task : AgentTask) (status : Status) (output : Option TaskOutput) (now : Nat),
      ((updateTaskStatus task status output now).completedAt =
        if status = Status.SUCCESS ∨ status = Status.FAILED then some now
        else task.completedAt)
      ∧ (updateTaskStatus task status output now).input = task.input
      ∧ (updateTaskStatus task status output now).attempts = task.attempts
      ∧ (updateTaskStatus task status output now).createdAt = task.createdAt
      ∧ (updateTaskStatus { task with completedAt := none }
          Status.REQUIRES_MANUAL_ACTION output now).completedAt = none := by
  intro task status output now
  cases output <;>
    simp [updateTaskStatus] <;>
    rcases status <;> simp

/-- One database write or agent call performed by the worker while
processing a job, in program order (agent-coordinator.ts `processTask`). -/
inductive WorkerEvent where
  | markInProgress (taskId : String) (startedAt : Nat)
  | invokeAgent (agentType taskId : String)
  | markFailed (taskId : String) (completedAt : Nat)
deriving DecidableEq, Repr

/-- The `TaskResult` record returned by `processTask`
(agent-coordinator.ts lines 17-24); the `status` field is the literal
string the source puts there. -/
structure WorkerTaskResult where
  taskId : String
  agentType : String
  status : String
  error : Option String
deriving DecidableEq, Repr

/-- `AgentCoordinator.processTask` (agent-coordinator.ts lines 224-280).
The stored task row is first updated to `IN_PROGRESS` with `startedAt`
set, then the agent is invoked; `agentOutcome` supplies the result of that
invocation (`Except.error` when the agent throws).  On success the row is
not written again and a success result is returned; on failure the row is
updated to `FAILED` with `completedAt` set and a failed result carrying
the error message is returned.  The returned event list records the
writes and the invocation in program order. -/
def processTask (agentOutcome : Except String TaskOutput)
    (agentType : String) (task : AgentTask) (now : Nat) :
    AgentTask × List WorkerEvent × WorkerTaskResult :=
  let t1 := { task with status := Status.IN_PROGRESS,
                        startedAt := some now, updatedAt := now }
  match agentOutcome with
  | Except.ok _ =>
      (t1,
       [WorkerEvent.markInProgress task.id now,
        WorkerEvent.invokeAgent agentType task.id],
       { taskId := task.id, agentType := agentType,
         status := "success", error := none })
  | Except.error e =>
      let t2 := { t1 with status := Status.FAILED,
                          completedAt := some now, updatedAt := now }
      (t2,
       [WorkerEvent.markInProgress task.id now,
        WorkerEvent.invokeAgent agentType task.id,
        WorkerEvent.markFailed task.id now],
       { taskId := task.id, agentType := agentType,
         status := "failed", error := some e })

/-- `AgentCoordinator.mapAgentNameToType` (agent-coordinator.ts lines
285-298): maps a stored capability name to the queue-level agent type,
throwing on every unrecognized name. -/
def mapAgentNameToType (agentName : String) : Except String String :=
  if agentName = "Orchestrator" then Except.ok "OrchestratorAgent"
  else if agentName = "Deployment" then Except.ok "DeploymentAgent"
  else if agentName = "Monitoring" then Except.ok "MonitoringAgent"
  else if agentName = "Diagnosis" then Except.ok "DiagnosisAgent"
  else Except.error ("Unknown agent name: " ++ agentName)

/-- ASCII lowercasing of one character, the effect of
`String.prototype.toLowerCase` on the ASCII capability names involved. -/
def toLowerChar (c : Char) : Char :=
  if 65 ≤ c.toNat ∧ c.toNat ≤ 90 then Char.ofNat (c.toNat + 32) else c

/-- The character list of a string, lowercased. -/
def lowerChars (s : String) : List Char := s.data.map toLowerChar

/-- Effect of `replace(/agent$/i, "")` on an already lowercased character
list: remove a trailing "agent" when present. -/
def stripAgentSuffixChars (cs : List Char) : List Char :=
  if 5 ≤ cs.length ∧ cs.drop (cs.length - 5) = "agent".data then
    cs.take (cs.length - 5)
  else cs

/-- `OrchestratorAgent.mapAgentName` (orchestrator-agent.ts lines
113-134): lowercases the free-form name, strips a trailing "agent", and
maps recognized synonyms to the canonical capability; every other name
falls through to the default branch returning "Deployment". -/
def mapAgentName (agentName : String) : String :=
  let normalizedName := stripAgentSuffixChars (lowerChars agentName)
  if normalizedName = "deployment".data ∨ normalizedName = "deploy".data then
    "Deployment"
  else if normalizedName = "monitoring".data ∨ normalizedName = "monitor".data then
    "Monitoring"
  else if normalizedName = "diagnosis".data ∨ normalizedName = "diagnose".data
      ∨ normalizedName = "diagnostic".data then
    "Diagnosis"
  else if normalizedName = "orchestrator".data ∨ normalizedName = "orchestrate".data then
    "Orchestrator"
  else "Deployment"

/-- A task row that is already IN_PROGRESS (it was started at time 3),
delivered to the worker a second time. -/
def duplicateDeliveredTask : AgentTask :=
  { id := "task-1", deploymentId := "dep-1", agentName := "Deployment",
    taskName := "build", status := Status.IN_PROGRESS, attempts := 0,
    input := some "repo", output := none, startedAt := some 3,
    completedAt := none, createdAt := 1, updatedAt := 3 }

/-- Claim C1: the worker has no idempotent-start guard.  Evaluating
`processTask` on a task whose stored status is already IN_PROGRESS shows
the agent is invoked again, the row is overwritten (its `startedAt` moves
from 3 to the new time 9), and the reported outcome is the ordinary
"success", not a duplicate-skip. -/
theorem processTask_reexecutes_in_progress_task :
    (processTask (Except.ok (TaskOutput.errorOutput "ignored")) "DeploymentAgent"
        duplicateDeliveredTask 9).2.1.contains
        (WorkerEvent.invokeAgent "DeploymentAgent" "task-1") = true
    ∧ (processTask (Except.ok (TaskOutput.errorOutput "ignored")) "DeploymentAgent"
        duplicateDeliveredTask 9).1.startedAt = some 9
    ∧ (processTask (Except.ok (TaskOutput.errorOutput "ignored")) "DeploymentAgent"
        duplicateDeliveredTask 9).2.2.status = "success" := by
  refine ⟨by decide, rfl, rfl⟩

/-- Claim C6: for every unit of work, the worker first durably marks the
task IN_PROGRESS with `startedAt` set and only then invokes the agent —
these are literally the first two events of every run — and when the agent
throws, the task is marked FAILED with `completedAt` set while the failure
message is carried in the returned result instead of being swallowed. -/
theorem processTask_marks_before_invoke_and_propagates_failure :
    ∀ (agentOutcome : Except String TaskOutput) (agentType : String)
      (task : AgentTask) (now : Nat),
      ((processTask agentOutcome agentType task now).2.1.take 2 =
        [WorkerEvent.markInProgress task.id now,
         WorkerEvent.invokeAgent agentType task.id])
      ∧ ((processTask agentOutcome agentType task now).1.status = Status.IN_PROGRESS
          ∨ (processTask agentOutcome agentType task now).1.status = Status.FAILED)
      ∧ (processTask agentOutcome agentType task now).1.startedAt = some now
      ∧ (∀ e, agentOutcome = Except.error e →
          (processTask agentOutcome agentType task now).1.status = Status.FAILED
          ∧ (processTask agentOutcome agentType task now).1.completedAt = some now
          ∧ (processTask agentOutcome agentType task now).2.2.status = "failed"
          ∧ (processTask agentOutcome agentType task now).2.2.error = some e) := by
  intro agentOutcome agentType task now
  cases agentOutcome <;> simp [processTask]

/-- Witness for claim C6 at a concrete failing agent run. -/
theorem processTask_marks_before_invoke_witness :
    (processTask (Except.error "boom") "DeploymentAgent"
        duplicateDeliveredTask 9).1.status = Status.FAILED
    ∧ (processTask (Except.error "boom") "DeploymentAgent"
        duplicateDeliveredTask 9).2.2.error = some "boom" := by
  have h := processTask_marks_before_invoke_and_propagates_failure
    (Except.error "boom") "DeploymentAgent" duplicateDeliveredTask 9
  have h2 := h.2.2.2 "boom" rfl
  exact ⟨h2.1, h2.2.2.2⟩

/-- Claim C3: resolution of free-form capability names is not fail-closed
everywhere on the dispatch path.  The coordinator side
(`mapAgentNameToType`) does throw an unknown-capability error, but the
orchestrator side (`mapAgentName`) silently routes every unrecognized name
— here "FooBar" — to the default "Deployment" variant. -/
theorem mapAgentName_silently_default_routes_unknown :
    mapAgentName "FooBar" = "Deployment"
    ∧ mapAgentNameToType "FooBar" =
        Except.error "Unknown agent name: FooBar"
    ∧ mapAgentName "SecurityScannerAgent" = "Deployment" := by
  refine ⟨by decide, by rfl, by decide⟩

/-- How one run of the deployment build loop ends (deployment-agent.ts
lines 314-363): a successful build, an early return after the analysis
flagged manual intervention, or a thrown error that the outer catch of
`execute` will turn into a FAILED task. -/
inductive LoopOutcome where
  | builtOk (imageName : String)
  | manualAction (error : String) (analysis : ErrorAnalysis)
  | threw (message : String)
deriving DecidableEq, Repr

/-- Results of the external effects the deployment agent performs: the
outcome of the i-th `buildDockerImage` call (counting from 0; `none` means
the build succeeded, `some e` that it threw error text `e`), the fault
analysis the LLM returns for the failure of the i-th build, and the
outcome of the final `docker run`. -/
structure BuildEnv where
  deploymentId : String
  repoPath : String
  buildResult : Nat → Option String
  analysis : Nat → ErrorAnalysis
  runError : Option String

/-- `DeploymentAgent.maxRetries` (deployment-agent.ts line 32). -/
def deploymentMaxRetries : Nat := 3

/-- The image tag built by `buildDockerImage` (deployment-agent.ts line
200): the deployment id, lowercased, under a fixed name. -/
def dockerImageName (deploymentId : String) : String :=
  "kairoz-app-" ++ String.mk (lowerChars deploymentId)

/-- State after the build loop: the task row as stored, the local
`attempt` variable, how many times `buildDockerImage` was invoked, and how
the loop ended. -/
structure LoopResult where
  task : AgentTask
  attempt : Nat
  buildCount : Nat
  outcome : LoopOutcome
deriving Repr

/-- The self-correction while loop of `DeploymentAgent.execute`
(deployment-agent.ts lines 315-363), including the post-loop throw when
the loop exits without an image.  Each iteration: if `attempt` exceeds
`maxRetries` the loop has exited and the missing image is reported;
otherwise one build is attempted; on success the loop ends; on failure,
when `attempt` equals `maxRetries` the build error is rethrown; otherwise
the fault analysis is consulted — a manual-intervention flag updates the
task to REQUIRES_MANUAL_ACTION with the analysis attached and returns,
and otherwise the fix is applied, the stored attempts counter is
incremented, and its new value becomes the local `attempt`.  `fuel` is an
upper bound on iterations, strictly larger than the source loop ever
needs; running out of fuel is reported as a distinguished thrown error so
that no theorem can mistake it for source behaviour. -/
def selfCorrectionLoop (env : BuildEnv) (maxRetries now : Nat) :
    Nat → AgentTask → Nat → Nat → LoopResult
  | 0, task, attempt, builds =>
      { task := task, attempt := attempt, buildCount := builds,
        outcome := LoopOutcome.threw "model out of fuel" }
  | fuel + 1, task, attempt, builds =>
      if attempt ≤ maxRetries then
        match env.buildResult builds with
        | none =>
            { task := task, attempt := attempt, buildCount := builds + 1,
              outcome := LoopOutcome.builtOk (dockerImageName env.deploymentId) }
        | some err =>
            if attempt = maxRetries then
              { task := task, attempt := attempt, buildCount := builds + 1,
                outcome := LoopOutcome.threw
                  ("Build failed after " ++ toString maxRetries ++ " attempts: " ++ err) }
            else
              if (env.analysis builds).requiresManualIntervention then
                { task := updateTaskStatus task Status.REQUIRES_MANUAL_ACTION
                    (some (TaskOutput.manualActionOutput err (env.analysis builds)
                      env.repoPath)) now,
                  attempt := attempt, buildCount := builds + 1,
                  outcome := LoopOutcome.manualAction err (env.analysis builds) }
              else
                let r := incrementAttempts task
                selfCorrectionLoop env maxRetries now fuel r.1 r.2 (builds + 1)
      else
        { task := task, attempt := attempt, buildCount := builds,
          outcome := LoopOutcome.threw "Failed to build Docker image" }

/-- The value `DeploymentAgent.execute` returns to its caller: the early
manual-action return of line 342 or the success result of line 378; a
thrown error is the `Except.error` case of `ExecResult.returned`. -/
inductive ReturnValue where
  | manualAction (status message : String) (analysis : ErrorAnalysis)
  | deployed (deploymentId imageName containerName repoPath : String) (attempts : Nat)
deriving DecidableEq, Repr

/-- Overall result of one run of `DeploymentAgent.execute`: the stored
task row afterwards, the number of `buildDockerImage` invocations, and the
returned or thrown value. -/
structure ExecResult where
  task : AgentTask
  buildCount : Nat
  returned : Except String ReturnValue
deriving Repr

/-- `DeploymentAgent.execute` (deployment-agent.ts lines 281-397) from the
start of the build loop on: the task is first marked IN_PROGRESS, the
self-correction loop runs with the local `attempt` starting at 1, and the
outcome is dispatched as in the source — a manual-action loop exit was
already written to the task and is returned; a thrown error is caught by
the outer catch, which marks the task FAILED with the error attached and
rethrows; a built image is run, a run failure likewise reaching the outer
catch, and otherwise the task is marked SUCCESS with the result attached.
The clone/analyze/generate steps preceding the loop only produce the
opaque inputs collected in `env`. -/
def deploymentExecute (env : BuildEnv) (task0 : AgentTask) (now fuel : Nat) :
    ExecResult :=
  let t1 := updateTaskStatus task0 Status.IN_PROGRESS none now
  let lr := selfCorrectionLoop env deploymentMaxRetries now fuel t1 1 0
  match lr.outcome with
  | LoopOutcome.manualAction _ analysis =>
      { task := lr.task, buildCount := lr.buildCount,
        returned := Except.ok (ReturnValue.manualAction "REQUIRES_MANUAL_ACTION"
          analysis.suggestedFix analysis) }
  | LoopOutcome.threw msg =>
      { task := updateTaskStatus lr.task Status.FAILED
          (some (TaskOutput.errorOutput msg)) now,
        buildCount := lr.buildCount, returned := Except.error msg }
  | LoopOutcome.builtOk image =>
      match env.runError with
      | some err =>
          { task := updateTaskStatus lr.task Status.FAILED
              (some (TaskOutput.errorOutput err)) now,
            buildCount := lr.buildCount, returned := Except.error err }
      | none =>
          { task := updateTaskStatus lr.task Status.SUCCESS
              (some (TaskOutput.successOutput env.deploymentId image
                ("kairoz-" ++ env.deploymentId) env.repoPath lr.attempt)) now,
            buildCount := lr.buildCount,
            returned := Except.ok (ReturnValue.deployed env.deploymentId image
              ("kairoz-" ++ env.deploymentId) env.repoPath lr.attempt) }

/-- An environment in which every build fails with the same correctable
error and the analysis never flags manual intervention. -/
def allFailEnv : BuildEnv :=
  { deploymentId := "dep1", repoPath := "workspace/dep1",
    buildResult := fun _ => some "npm install failed",
    analysis := fun _ =>
      { errorType := "dependency", rootCause := "missing lockfile",
        suggestedFix := "copy the lockfile before install", confidence := 80,
        requiresManualIntervention := false },
    runError := none }

/-- A freshly created deployment task: status PENDING, attempts 0, as
created by the orchestrator. -/
def freshDeployTask : AgentTask :=
  { id := "task-7", deploymentId := "dep1", agentName := "Deployment",
    taskName := "deploy", status := Status.PENDING, attempts := 0,
    input := some "repo", output := none, startedAt := none,
    completedAt := none, createdAt := 1, updatedAt := 1 }

/-- Claim C2: refuted on the ceiling half.  With the stored attempts
counter starting at its schema default 0, the local `attempt` variable
(starting at 1) and the value returned by `incrementAttempts` desync: the
first increment yields 1 again, so with every build failing correctably
the loop invokes `buildDockerImage` four times although `maxRetries` is 3
— while the thrown message still says three attempts.  The FAILED half of
the claim does hold: the task ends FAILED with the last error attached. -/
theorem selfCorrection_exceeds_build_ceiling :
    deploymentMaxRetries = 3
    ∧ (deploymentExecute allFailEnv freshDeployTask 11 10).buildCount = 4
    ∧ (deploymentExecute allFailEnv freshDeployTask 11 10).task.status = Status.FAILED
    ∧ (deploymentExecute allFailEnv freshDeployTask 11 10).task.output =
        some (TaskOutput.errorOutput
          "Build failed after 3 attempts: npm install failed") := by
  refine ⟨rfl, by decide, by decide, by decide⟩

/-- Claim C5: whenever a build-failure iteration consults the fault
analysis and it flags manual intervention, the loop stops at once: the
task is updated to REQUIRES_MANUAL_ACTION with the analysis attached as
output, that iteration performed the only additional build, and the
attempts counter is left exactly as it was (so a first-attempt flag keeps
it at 0). -/
theorem manual_intervention_aborts_loop :
    ∀ (env : BuildEnv) (maxRetries now fuel : Nat) (task : AgentTask)
      (attempt builds : Nat) (err : String),
      env.buildResult builds = some err →
      attempt ≤ maxRetries →
      attempt ≠ maxRetries →
      (env.analysis builds).requiresManualIntervention = true →
      (selfCorrectionLoop env maxRetries now (fuel + 1) task attempt builds =
        { task := updateTaskStatus task Status.REQUIRES_MANUAL_ACTION
            (some (TaskOutput.manualActionOutput err (env.analysis builds)
              env.repoPath)) now,
          attempt := attempt, buildCount := builds + 1,
          outcome := LoopOutcome.manualAction err (env.analysis builds) })
      ∧ (selfCorrectionLoop env maxRetries now (fuel + 1)
          task attempt builds).task.attempts = task.attempts
      ∧ (selfCorrectionLoop env maxRetries now (fuel + 1)
          task attempt builds).task.status = Status.REQUIRES_MANUAL_ACTION
      ∧ (selfCorrectionLoop env maxRetries now (fuel + 1)
          task attempt builds).buildCount = builds + 1 := by
  intro env maxRetries now fuel task attempt builds err hb hle hne hman
  have hstep : selfCorrectionLoop env maxRetries now (fuel + 1) task attempt builds =
      { task := updateTaskStatus task Status.REQUIRES_MANUAL_ACTION
          (some (TaskOutput.manualActionOutput err (env.analysis builds)
            env.repoPath)) now,
        attempt := attempt, buildCount := builds + 1,
        outcome := LoopOutcome.manualAction err (env.analysis builds) } := by
    simp [selfCorrectionLoop, hb, hle, hne, hman]
  refine ⟨hstep, ?_, ?_, ?_⟩ <;> rw [hstep] <;>
    simp [updateTaskStatus]

/-- An environment whose very first build failure is analyzed as needing
manual intervention. -/
def manualFlagEnv : BuildEnv :=
  { deploymentId := "dep2", repoPath := "workspace/dep2",
    buildResult := fun _ => some "base image not found",
    analysis := fun _ =>
      { errorType := "infra", rootCause := "private base image",
        suggestedFix := "log in to the registry", confidence := 90,
        requiresManualIntervention := true },
    runError := none }

/-- Witness for claim C5: the flag raised on the first attempt of a fresh
task leaves attempts at 0, sets REQUIRES_MANUAL_ACTION, and stops after a
single build. -/
theorem manual_intervention_aborts_loop_witness :
    (selfCorrectionLoop manualFlagEnv 3 11 10
        (updateTaskStatus freshDeployTask Status.IN_PROGRESS none 11) 1 0).task.attempts = 0
    ∧ (selfCorrectionLoop manualFlagEnv 3 11 10
        (updateTaskStatus freshDeployTask Status.IN_PROGRESS none 11) 1 0).task.status =
        Status.REQUIRES_MANUAL_ACTION
    ∧ (selfCorrectionLoop manualFlagEnv 3 11 10
        (updateTaskStatus freshDeployTask Status.IN_PROGRESS none 11) 1 0).buildCount = 1 := by
  have h := manual_intervention_aborts_loop manualFlagEnv 3 11 9
    (updateTaskStatus freshDeployTask Status.IN_PROGRESS none 11) 1 0
    "base image not found" rfl (by decide) (by decide) rfl
  exact ⟨by rw [h.1]; decide, by rw [h.1]; decide, by rw [h.1]⟩

/-- The values the `agentType` field of `TaskInputSchema` accepts
(agent-coordinator.ts lines 8-15). -/
def agentTypeValues : List String :=
  ["OrchestratorAgent", "DeploymentAgent", "MonitoringAgent", "DiagnosisAgent"]

/-- A job as added to the queue by `queueTask`: the job name, the
validated task data, and the job options (agent-coordinator.ts lines
193-198). -/
structure QueuedJob where
  name : String
  agentType : String
  taskId : String
  input : String
  priority : Nat
  delay : Nat
  attempts : Nat
deriving DecidableEq, Repr

/-- `AgentCoordinator.queueTask` (agent-coordinator.ts lines 174-212):
parses the task data against `TaskInputSchema` — the agent type must be
one of the four enum values, and priority, delay and attempts default to
50, 0 and 1 — then adds the job with those options.  A validation
failure is rethrown to the caller. -/
def queueTask (agentType taskId input : String)
    (priority delay attempts : Option Nat) : Except String QueuedJob :=
  if agentTypeValues.contains agentType then
    Except.ok
      { name := agentType ++ "-" ++ taskId, agentType := agentType,
        taskId := taskId, input := input,
        priority := priority.getD 50, delay := delay.getD 0,
        attempts := attempts.getD 1 }
  else
    Except.error ("Invalid enum value for agentType: " ++ agentType)

/-- `AgentCoordinator.retryTask` (agent-coordinator.ts lines 460-490).
`stored` is the row `findUnique` returns for `taskId`.  A missing task or
a status other than FAILED raises an error with the row untouched.
Otherwise the row is first reset — status PENDING, `startedAt` and
`completedAt` cleared; the `attempts` column is not part of the update —
and then the task is re-queued with priority 60 and a queue-level attempt
budget of the stored attempts plus one, passing the stored capability
name through as the agent type.  The first component is the stored row
after the call; the second is the re-queue result. -/
def retryTask (taskId : String) (stored : Option AgentTask) (now : Nat) :
    Option AgentTask × Except String QueuedJob :=
  match stored with
  | none => (none, Except.error ("Task " ++ taskId ++ " not found"))
  | some task =>
    if task.status ≠ Status.FAILED then
      (some task, Except.error ("Task " ++ taskId ++ " is not in failed state"))
    else
      let task1 :=
        { task with
          status := Status.PENDING, startedAt := none,
          completedAt := none, updatedAt := now }
      (some task1,
       queueTask task.agentName task.id (task.input.getD "{}")
         (some 60) none (some (task.attempts + 1)))

/-- The priority given to every enqueue performed by the reconciliation
sweep (agent-coordinator.ts line 329). -/
def recoveryPriority : Nat := 75

/-- Insert a task into a list that is already ordered by `createdAt`
ascending, keeping the order; used to model the orderBy clause of the
reconciliation query. -/
def insertByCreated (t : AgentTask) : List AgentTask → List AgentTask
  | [] => [t]
  | u :: us =>
    if t.createdAt ≤ u.createdAt then t :: u :: us
    else u :: insertByCreated t us

/-- Sort a task list by `createdAt` ascending, the orderBy contract of the
reconciliation query. -/
def sortByCreated : List AgentTask → List AgentTask
  | [] => []
  | t :: ts => insertByCreated t (sortByCreated ts)

/-- The batch the reconciliation sweep selects (agent-coordinator.ts lines
305-313): rows whose status is PENDING, ordered by `createdAt` ascending,
limited to 50. -/
def pendingBatch (db1 : List AgentTask) : List AgentTask :=
  (sortByCreated (db1.filter (fun t => t.status = Status.PENDING))).take 50

/-- `AgentCoordinator.processPendingTasksFromDB` (agent-coordinator.ts
lines 303-348).  `db1` is the table contents at `findMany` time and `db2`
the per-id lookup at the later `findUnique` re-read.  For each task of the
selected batch: the capability name is mapped (an unknown name is caught,
logged and skipped), the row is re-read, and only when it is still
PENDING is the task queued, at the elevated recovery priority; any
queueing failure is likewise caught and the task skipped.  The returned
list holds the jobs actually enqueued, in batch order.
`reconcileDecision` is the body of the for loop: one task of the batch is
mapped, re-read and conditionally enqueued. -/
def reconcileDecision (db2 : String → Option AgentTask)
    (task : AgentTask) : Option QueuedJob :=
  match mapAgentNameToType task.agentName with
  | Except.error _ => none
  | Except.ok agentType =>
    match db2 task.id with
    | some currentTask =>
      if currentTask.status = Status.PENDING then
        match queueTask agentType task.id (task.input.getD "{}")
            (some recoveryPriority) none none with
        | Except.ok job => some job
        | Except.error _ => none
      else none
    | none => none

/-- The whole sweep: the per-task decision applied over the selected
batch, collecting the jobs actually enqueued, in batch order. -/
def processPendingTasksFromDB (db1 : List AgentTask)
    (db2 : String → Option AgentTask) : List QueuedJob :=
  (pendingBatch db1).filterMap (reconcileDecision db2)

/-- The enqueue of the root orchestrator task performed by the deployment
worker (services/queue.ts lines 94-107): priority 10, one queue attempt. -/
def orchestratorRootEnqueue (taskId input : String) : Except String QueuedJob :=
  queueTask "OrchestratorAgent" taskId input (some 10) none (some 1)

/-- Modelled from the spec: the queue backend (an external library) offers
jobs to workers in priority order, higher priority first, among those
whose delay has elapsed (spec sections 4.2 and 6); `a` is offered before
`b` when its priority is strictly higher. -/
def offeredBefore (a b : QueuedJob) : Prop := b.priority < a.priority

/-- A successful `queueTask` fills the job fields from its arguments and
the schema defaults. -/
theorem queueTask_ok_fields :
    ∀ (ty tid inp : String) (p d a : Option Nat) (job : QueuedJob),
      queueTask ty tid inp p d a = Except.ok job →
      job.taskId = tid ∧ job.priority = p.getD 50 ∧ job.delay = d.getD 0
      ∧ job.attempts = a.getD 1 ∧ job.agentType = ty := by
  intro ty tid inp p d a job h
  unfold queueTask at h
  split at h
  · injection h with h
    subst h
    exact ⟨rfl, rfl, rfl, rfl, rfl⟩
  · cases h

/-- Inversion of the reconciliation loop body: an enqueued job carries the
id of its batch task, the recovery priority, and a witness that the
re-read row was still PENDING. -/
theorem reconcileDecision_some :
    ∀ (db2 : String → Option AgentTask) (task : AgentTask) (job : QueuedJob),
      reconcileDecision db2 task = some job →
      job.taskId = task.id ∧ job.priority = recoveryPriority
      ∧ ∃ cur, db2 task.id = some cur ∧ cur.status = Status.PENDING := by
  intro db2 task job h
  unfold reconcileDecision at h
  cases hm : mapAgentNameToType task.agentName with
  | error e => simp only [hm] at h; cases h
  | ok ty =>
    simp only [hm] at h
    cases hd : db2 task.id with
    | none => simp only [hd] at h; cases h
    | some cur =>
      simp only [hd] at h
      by_cases hp : cur.status = Status.PENDING
      · simp only [if_pos hp] at h
        cases hq : queueTask ty task.id (task.input.getD "{}")
            (some recoveryPriority) none none with
        | error e => simp only [hq] at h; cases h
        | ok j2 =>
          simp only [hq] at h
          injection h with h
          subst h
          have hf := queueTask_ok_fields ty task.id _ _ _ _ j2 hq
          exact ⟨hf.1, by simpa [recoveryPriority] using hf.2.1, cur, rfl, hp⟩
      · simp only [if_neg hp] at h; cases h

/-- The selected batch is sorted by creation time ascending. -/
theorem mem_insertByCreated :
    ∀ (t x : AgentTask) (l : List AgentTask),
      x ∈ insertByCreated t l ↔ x = t ∨ x ∈ l := by
  intro t x l
  induction l with
  | nil => simp [insertByCreated]
  | cons u us ih =>
    unfold insertByCreated
    split
    · simp [or_comm, or_left_comm]
    · simp [ih, or_comm, or_left_comm]

/-- Sorting preserves the elements. -/
theorem mem_sortByCreated :
    ∀ (l : List AgentTask) (x : AgentTask), x ∈ sortByCreated l ↔ x ∈ l := by
  intro l
  induction l with
  | nil => intro x; simp [sortByCreated]
  | cons t ts ih =>
    intro x
    unfold sortByCreated
    rw [mem_insertByCreated]
    simp [ih]

/-- Inserting into an ascending list keeps it ascending. -/
theorem insertByCreated_pairwise :
    ∀ (t : AgentTask) (l : List AgentTask),
      l.Pairwise (fun a b => a.createdAt ≤ b.createdAt) →
      (insertByCreated t l).Pairwise (fun a b => a.createdAt ≤ b.createdAt) := by
  intro t l
  induction l with
  | nil => intro _; simp [insertByCreated]
  | cons u us ih =>
    intro hp
    rw [List.pairwise_cons] at hp
    unfold insertByCreated
    split
    · rename_i hle
      rw [List.pairwise_cons]
      refine ⟨?_, List.pairwise_cons.mpr hp⟩
      intro x hx
      rcases List.mem_cons.mp hx with hx | hx
      · subst hx; exact hle
      · exact le_trans hle (hp.1 x hx)
    · rename_i hgt
      rw [List.pairwise_cons]
      refine ⟨?_, ih hp.2⟩
      intro x hx
      rcases (mem_insertByCreated t x us).mp hx with hx | hx
      · subst hx; omega
      · exact hp.1 x hx

/-- The sort produces an ascending list. -/
theorem sortByCreated_pairwise :
    ∀ (l : List AgentTask),
      (sortByCreated l).Pairwise (fun a b => a.createdAt ≤ b.createdAt) := by
  intro l
  induction l with
  | nil => simp [sortByCreated]
  | cons t ts ih =>
    unfold sortByCreated
    exact insertByCreated_pairwise t _ ih

/-- The selected batch is sorted by creation time ascending. -/
theorem pendingBatch_sorted (db1 : List AgentTask) :
    (pendingBatch db1).Pairwise (fun a b => a.createdAt ≤ b.createdAt) := by
  exact (sortByCreated_pairwise _).sublist (List.take_sublist _ _)

/-- Every batch member comes from the table and was PENDING there. -/
theorem pendingBatch_mem :
    ∀ (db1 : List AgentTask) (t : AgentTask), t ∈ pendingBatch db1 →
      t ∈ db1 ∧ t.status = Status.PENDING := by
  intro db1 t ht
  have h1 := List.take_subset _ _ ht
  rw [mem_sortByCreated] at h1
  rw [List.mem_filter] at h1
  exact ⟨h1.1, by simpa using h1.2⟩

/-- Claim C7: each reconciliation sweep selects only tasks PENDING at scan
time, in creation-time ascending order, at most 50 of them; every enqueued
job stems from such a task whose re-read row was still PENDING; and a
batch task whose re-read row is no longer PENDING is never enqueued. -/
theorem reconciliation_selects_and_rechecks :
    ∀ (db1 : List AgentTask) (db2 : String → Option AgentTask),
      ((pendingBatch db1).Pairwise (fun a b => a.createdAt ≤ b.createdAt))
      ∧ (∀ t ∈ pendingBatch db1, t ∈ db1 ∧ t.status = Status.PENDING)
      ∧ ((processPendingTasksFromDB db1 db2).length ≤ 50)
      ∧ (∀ j ∈ processPendingTasksFromDB db1 db2,
          ∃ t ∈ pendingBatch db1, j.taskId = t.id
            ∧ ∃ cur, db2 t.id = some cur ∧ cur.status = Status.PENDING)
      ∧ (∀ t ∈ pendingBatch db1, ∀ cur, db2 t.id = some cur →
          cur.status ≠ Status.PENDING →
          ∀ j ∈ processPendingTasksFromDB db1 db2, j.taskId ≠ t.id) := by
  intro db1 db2
  refine ⟨pendingBatch_sorted db1, pendingBatch_mem db1, ?_, ?_, ?_⟩
  · have h1 : (pendingBatch db1).length ≤ 50 := by
      unfold pendingBatch
      rw [List.length_take]
      exact min_le_left _ _
    exact le_trans (List.length_filterMap_le _ _) h1
  · intro j hj
    simp only [processPendingTasksFromDB, List.mem_filterMap] at hj
    obtain ⟨t, ht, hdec⟩ := hj
    have h := reconcileDecision_some db2 t j hdec
    exact ⟨t, ht, h.1, h.2.2⟩
  · intro t ht cur hcur hne j hj heq
    simp only [processPendingTasksFromDB, List.mem_filterMap] at hj
    obtain ⟨t2, ht2, hdec⟩ := hj
    have h := reconcileDecision_some db2 t2 j hdec
    obtain ⟨cur2, hcur2, hp2⟩ := h.2.2
    have hid : t2.id = t.id := by rw [← h.1, heq]
    rw [hid, hcur] at hcur2
    injection hcur2 with hc
    rw [hc] at hne
    exact hne hp2

/-- A PENDING deployment task created at time 2. -/
def reconTaskA : AgentTask :=
  { id := "a", deploymentId := "dep-1", agentName := "Deployment",
    taskName := "deploy", status := Status.PENDING, attempts := 0,
    input := some "repo", output := none, startedAt := none,
    completedAt := none, createdAt := 2, updatedAt := 2 }

/-- A PENDING monitoring task created at time 1, earlier than
`reconTaskA`. -/
def reconTaskB : AgentTask :=
  { id := "b", deploymentId := "dep-1", agentName := "Monitoring",
    taskName := "watch", status := Status.PENDING, attempts := 0,
    input := none, output := none, startedAt := none,
    completedAt := none, createdAt := 1, updatedAt := 1 }

/-- A re-read state in which task a is still PENDING but task b has
meanwhile been picked up and is IN_PROGRESS. -/
def reconDb2 (id : String) : Option AgentTask :=
  if id = "a" then some reconTaskA
  else if id = "b" then
    some { reconTaskB with status := Status.IN_PROGRESS, startedAt := some 3 }
  else none

/-- Witness for claim C7: on the concrete two-task table, the sweep stays
within the batch bound and never enqueues the task whose re-read row is no
longer PENDING. -/
theorem reconciliation_selects_and_rechecks_witness :
    ((processPendingTasksFromDB [reconTaskA, reconTaskB] reconDb2).length ≤ 50)
    ∧ ((processPendingTasksFromDB [reconTaskA, reconTaskB] reconDb2).all
        (fun j => j.taskId ≠ "b")) = true := by
  have h := reconciliation_selects_and_rechecks [reconTaskA, reconTaskB] reconDb2
  refine ⟨h.2.2.1, ?_⟩
  rw [List.all_eq_true]
  intro j hj
  have hskip := h.2.2.2.2 reconTaskB (by decide)
    { reconTaskB with status := Status.IN_PROGRESS, startedAt := some 3 }
    (by rfl) (by decide) j hj
  simpa [reconTaskB] using hskip

/-- Claim C8: every job the reconciliation sweep enqueues carries the
elevated recovery priority 75, strictly above both the orchestrator root
enqueue (priority 10) and any default-priority enqueue (priority 50), so
under the priority order of the queue (higher first, `offeredBefore`)
recovery work is offered to workers before freshly created work. -/
theorem recovery_enqueues_offered_before_fresh :
    ∀ (db1 : List AgentTask) (db2 : String → Option AgentTask) (j : QueuedJob),
      j ∈ processPendingTasksFromDB db1 db2 →
      j.priority = recoveryPriority
      ∧ (∀ (tid inp : String) (job : QueuedJob),
          orchestratorRootEnqueue tid inp = Except.ok job → offeredBefore j job)
      ∧ (∀ (ty tid inp : String) (job : QueuedJob),
          queueTask ty tid inp none none none = Except.ok job →
            offeredBefore j job) := by
  intro db1 db2 j hj
  simp only [processPendingTasksFromDB, List.mem_filterMap] at hj
  obtain ⟨t, ht, hdec⟩ := hj
  have hp := (reconcileDecision_some db2 t j hdec).2.1
  refine ⟨hp, ?_, ?_⟩
  · intro tid inp job h
    unfold orchestratorRootEnqueue at h
    have hf := queueTask_ok_fields _ _ _ _ _ _ job h
    unfold offeredBefore
    rw [hp, hf.2.1]
    decide
  · intro ty tid inp job h
    have hf := queueTask_ok_fields _ _ _ _ _ _ job h
    unfold offeredBefore
    rw [hp, hf.2.1]
    decide

/-- The job the sweep enqueues for `reconTaskA`. -/
def reconJobA : QueuedJob :=
  { name := "DeploymentAgent-a", agentType := "DeploymentAgent",
    taskId := "a", input := "repo", priority := 75, delay := 0, attempts := 1 }

/-- Witness for claim C8: the concrete recovery job is offered before a
concrete orchestrator root job. -/
theorem recovery_enqueues_offered_before_fresh_witness :
    (reconJobA ∈ processPendingTasksFromDB [reconTaskA, reconTaskB] reconDb2)
    ∧ offeredBefore reconJobA
        { name := "OrchestratorAgent-root", agentType := "OrchestratorAgent",
          taskId := "root", input := "deploy repo", priority := 10, delay := 0,
          attempts := 1 } := by
  have hmem : reconJobA ∈ processPendingTasksFromDB [reconTaskA, reconTaskB]
      reconDb2 := by decide
  have h := recovery_enqueues_offered_before_fresh [reconTaskA, reconTaskB]
    reconDb2 reconJobA hmem
  exact ⟨hmem, h.2.1 "root" "deploy repo" _ rfl⟩

/-- A FAILED task whose stored capability name happens to be one of the
long-form agent type names, so that its re-queue passes validation; its
attempts counter is still at the schema default 0. -/
def failedLongNameTask : AgentTask :=
  { id := "task-9", deploymentId := "dep-1", agentName := "DeploymentAgent",
    taskName := "deploy", status := Status.FAILED, attempts := 0,
    input := some "repo", output := some (TaskOutput.errorOutput "build failed"),
    startedAt := some 4, completedAt := some 5, createdAt := 1, updatedAt := 5 }

/-- Claim C4: refuted on the attempts half.  `retryTask` does gate on
FAILED and does reset the row to PENDING with `startedAt` and
`completedAt` cleared — but the update never touches the `attempts`
column.  Here a FAILED task with attempts 0 is retried: the call returns
successfully (the job is enqueued) while the stored attempts counter is
still 0, not a strictly positive value.  The strictly positive value
attempts plus one only becomes the queue-level attempt budget of the
job. -/
theorem retryTask_leaves_attempts_at_zero :
    (retryTask "task-9" (some failedLongNameTask) 20).2 =
      Except.ok
        { name := "DeploymentAgent-task-9", agentType := "DeploymentAgent",
          taskId := "task-9", input := "repo", priority := 60, delay := 0,
          attempts := 1 }
    ∧ ((retryTask "task-9" (some failedLongNameTask) 20).1.map
        (fun t => t.status) = some Status.PENDING)
    ∧ ((retryTask "task-9" (some failedLongNameTask) 20).1.map
        (fun t => t.attempts) = some 0) := by
  refine ⟨by rfl, by decide, by decide⟩

/-- Claim C4 as amended: `retryTask` raises an error for a missing task or
any status other than FAILED, leaving the row unchanged; for a FAILED task
it transitions the row to PENDING with `startedAt` and `completedAt`
unset, leaves the stored attempts counter unchanged, and re-queues the
task at priority 60 with a queue-level attempt budget of the stored
attempts plus one — a strictly positive value. -/
theorem retryTask_gates_resets_and_requeues :
    ∀ (taskId : String) (task : AgentTask) (now : Nat),
      (retryTask taskId none now =
        (none, Except.error ("Task " ++ taskId ++ " not found")))
      ∧ (task.status ≠ Status.FAILED →
          retryTask taskId (some task) now =
            (some task,
             Except.error ("Task " ++ taskId ++ " is not in failed state")))
      ∧ (task.status = Status.FAILED →
          ((retryTask taskId (some task) now).1 =
            some { task with
                   status := Status.PENDING, startedAt := none,
                   completedAt := none, updatedAt := now })
          ∧ (∀ t1, (retryTask taskId (some task) now).1 = some t1 →
              t1.attempts = task.attempts ∧ t1.status = Status.PENDING
              ∧ t1.startedAt = none ∧ t1.completedAt = none)
          ∧ (∀ job, (retryTask taskId (some task) now).2 = Except.ok job →
              job.attempts = task.attempts + 1 ∧ 0 < job.attempts
              ∧ job.priority = 60)) := by
  intro taskId task now
  refine ⟨rfl, ?_, ?_⟩
  · intro hne
    unfold retryTask
    dsimp only
    rw [if_pos hne]
  · intro heq
    have hcond : ¬(task.status ≠ Status.FAILED) := by simp [heq]
    unfold retryTask
    dsimp only
    rw [if_neg hcond]
    refine ⟨rfl, ?_, ?_⟩
    · intro t1 h
      injection h with h
      subst h
      exact ⟨rfl, rfl, rfl, rfl⟩
    · intro job h
      have hf := queueTask_ok_fields _ _ _ _ _ _ job h
      refine ⟨by simpa using hf.2.2.2.1, ?_, by simpa using hf.2.1⟩
      have := hf.2.2.2.1
      simp only [Option.getD_some] at this
      omega

/-- Witness for the amended claim C4, applied at concrete rows: a missing
task errors, a SUCCESS task errors with the row unchanged, and a FAILED
task is reset to PENDING with timestamps cleared. -/
theorem retryTask_gates_resets_and_requeues_witness :
    (retryTask "x" none 0 = (none, Except.error "Task x not found"))
    ∧ (retryTask "task-9" (some { failedLongNameTask with status := Status.SUCCESS }) 20 =
        (some { failedLongNameTask with status := Status.SUCCESS },
         Except.error "Task task-9 is not in failed state"))
    ∧ ((retryTask "task-9" (some failedLongNameTask) 20).1 =
        some { failedLongNameTask with
               status := Status.PENDING,
               startedAt := none, completedAt := none, updatedAt := 20 }) := by
  have h1 := (retryTask_gates_resets_and_requeues "x" failedLongNameTask 0).1
  have h2 := (retryTask_gates_resets_and_requeues "task-9"
      { failedLongNameTask with status := Status.SUCCESS } 20).2.1 (by decide)
  have h3 := ((retryTask_gates_resets_and_requeues "task-9"
      failedLongNameTask 20).2.2 (by decide)).1
  exact ⟨h1, h2, h3⟩
